import Mathlib

/-
Verification development for the db_scan package (file src/db_scan/db_scan.go).

The Go code converts rows produced by a database cursor into typed records
using reflection.  This file gives a shallow embedding of that code:

  - dynamic cursor values become the closed union RawValue
    (the only dynamic types the package ever receives from a driver:
    int64, float32, float64, byte slice, time.Time, and nil);
  - the static types of record fields become FieldType
    (the kinds the converter distinguishes; the platform is 64 bit, so
    the kinds int, uint and uintptr are 64 bits wide);
  - reflect.Value mutation becomes explicit state passing: every function
    that mutates a destination returns the updated value together with
    the error, and a reflect panic is modelled by the Outcome.panicked
    constructor;
  - pointers are modelled as an optional wrapper (the code never relies on
    aliasing: it writes only through the unique chain of the destination);
  - IEEE-754 float arithmetic is out of scope, so float payloads are kept
    symbolic: GoFloat is the free algebra over the operations the code
    performs on floats (widening, narrowing, parsing).  No claim depends
    on numeric float semantics.
-/

namespace DbScan

/-! ## Errors (db_scan.go lines 10 to 16) -/

inductive ScanErr where
  | errTargetNotSettable
  | errConvertValue
  | errUnSupportTypeConvert
  | errSliceToString
  | errEmptyResult
deriving DecidableEq

/-- Outcome of an operation: normal success, a returned error, or a Go
runtime panic (reflect panics on misuse, e.g. IsNil on a non nilable
value or NumField on a non struct value). -/
inductive Outcome where
  | ok
  | err (e : ScanErr)
  | panicked (msg : String)
deriving DecidableEq

/-! ## Static field kinds

The reflect kinds the converter distinguishes.  tTime stands for the
struct type time.Time, the one non primitive field type the code treats
specially (it is directly assignable from a time.Time raw value). -/

inductive FieldType where
  | tString
  | tBool
  | tInt | tInt8 | tInt16 | tInt32 | tInt64
  | tUint | tUint8 | tUint16 | tUint32 | tUint64 | tUintptr
  | tFloat32 | tFloat64
  | tTime
deriving DecidableEq

/-- db_scan.go lines 51 to 53: k == reflect.Float32 || k == reflect.Float64. -/
def isFloat : FieldType → Bool
  | .tFloat32 => true
  | .tFloat64 => true
  | _ => false

/-- db_scan.go lines 59 to 61: reflect.Int <= k && k <= reflect.Int64. -/
def isSignedInteger : FieldType → Bool
  | .tInt => true
  | .tInt8 => true
  | .tInt16 => true
  | .tInt32 => true
  | .tInt64 => true
  | _ => false

/-- db_scan.go lines 63 to 65: reflect.Uint <= k && k <= reflect.Uintptr. -/
def isUnsignedInteger : FieldType → Bool
  | .tUint => true
  | .tUint8 => true
  | .tUint16 => true
  | .tUint32 => true
  | .tUint64 => true
  | .tUintptr => true
  | _ => false

/-- db_scan.go lines 55 to 57. -/
def isInteger (k : FieldType) : Bool :=
  isSignedInteger k || isUnsignedInteger k

/-- Bit width of a signed integer kind (64 bit platform: int is 64 bits). -/
def signedWidth : FieldType → Nat
  | .tInt8 => 8
  | .tInt16 => 16
  | .tInt32 => 32
  | _ => 64

/-- Bit width of an unsigned integer kind (64 bit platform: uint and
uintptr are 64 bits). -/
def unsignedWidth : FieldType → Nat
  | .tUint8 => 8
  | .tUint16 => 16
  | .tUint32 => 32
  | _ => 64

/-! ## Symbolic float payloads

Free algebra over the float operations the code performs.  The numeric
semantics of IEEE-754 floats is out of scope; the converter only moves
float values around, so a symbolic carrier is faithful for every claim. -/

inductive GoFloat where
  | zero
  | f32lit (bits : Nat)
  | f64lit (bits : Nat)
  | widen (f : GoFloat)
  | narrow (f : GoFloat)
  | parsed (s : String)
deriving DecidableEq

/-! ## Timestamps

time.Time is modelled by its wall clock components, which is all the
fixed layout 2006-01-02 15:04:05 reads. -/

structure GoTime where
  year : Nat
  month : Nat
  day : Nat
  hour : Nat
  minute : Nat
  second : Nat
deriving DecidableEq

/-- db_scan.go line 19: default struct tag name. -/
def DefaultTagName : String := "pg"

/-- db_scan.go line 20: default time layout. -/
def DefaultTimeFormat : String := "2006-01-02 15:04:05"

def pad2 (n : Nat) : String :=
  if n < 10 then "0" ++ toString n else toString n

def pad4 (n : Nat) : String :=
  if n < 10 then "000" ++ toString n
  else if n < 100 then "00" ++ toString n
  else if n < 1000 then "0" ++ toString n
  else toString n

/-- t.Format(DefaultTimeFormat): the Go layout 2006-01-02 15:04:05, i.e.
zero padded YYYY-MM-DD HH:MM:SS. -/
def goTimeFormat (t : GoTime) : String :=
  pad4 t.year ++ "-" ++ pad2 t.month ++ "-" ++ pad2 t.day ++ " " ++
    pad2 t.hour ++ ":" ++ pad2 t.minute ++ ":" ++ pad2 t.second

/-! ## Raw cursor values

The closed union of dynamic types a row can hold (spec section 3):
integer64, float32, float64, byte text, timestamp, null. -/

inductive RawValue where
  | vnull
  | vint64 (n : Int)
  | vfloat32 (f : GoFloat)
  | vfloat64 (f : GoFloat)
  | vbytes (s : String)
  | vtime (t : GoTime)
deriving DecidableEq

/-! ## Field values and destinations -/

/-- The content of one primitive typed record field. -/
inductive PrimVal where
  | pStr (s : String)
  | pBool (b : Bool)
  | pInt (n : Int)
  | pUint (n : Nat)
  | pFloat (f : GoFloat)
  | pTime (t : GoTime)
deriving DecidableEq

/-- One declared field of a record type: its name, the value of the pg
tag (none when the tag is absent), its static type, and whether reflect
can set it (false for unexported fields). -/
structure FieldDecl where
  fname : String
  tag : Option String
  ftype : FieldType
  canSet : Bool
deriving DecidableEq

/-- The static type of a destination. -/
inductive GoType where
  | prim (ft : FieldType)
  | ptrT (t : GoType)
  | structT (fds : List FieldDecl)
  | sliceT (t : GoType)

/-- A destination value.  A Go pointer is an optional wrapper (ptrNil is
the nil pointer); a slice carries its nilness flag and its elements. -/
inductive GoValue where
  | prim (p : PrimVal)
  | ptrNil
  | ptr (v : GoValue)
  | strukt (vals : List PrimVal)
  | sliceV (isNil : Bool) (elems : List GoValue)

/-- Zero value of a primitive kind (Go zero time is year 1, January 1). -/
def zeroPrim : FieldType → PrimVal
  | .tString => .pStr ""
  | .tBool => .pBool false
  | .tFloat32 => .pFloat .zero
  | .tFloat64 => .pFloat .zero
  | .tTime => .pTime ⟨1, 1, 1, 0, 0, 0⟩
  | k => if isSignedInteger k then .pInt 0 else .pUint 0

/-- reflect.New: the zero value of a type (nil pointer, nil slice,
all fields zero). -/
def zeroValue : GoType → GoValue
  | .prim ft => .prim (zeroPrim ft)
  | .ptrT _ => .ptrNil
  | .structT fds => .strukt (fds.map (fun f => zeroPrim f.ftype))
  | .sliceT _ => .sliceV true []

/-! ## Integer conversion semantics -/

/-- Wrap of an integer to w bits with sign, the Go conversion to a
signed w bit type (reflect SetInt truncates to the field width). -/
def wrapSigned (w : Nat) (n : Int) : Int :=
  (n + 2 ^ (w - 1)) % (2 ^ w : Int) - 2 ^ (w - 1)

/-- The Go conversion uint64(x) for an int64 x: the value modulo 2^64. -/
def int64ToUint64 (n : Int) : Nat :=
  (n % (2 ^ 64 : Int)).toNat

/-- reflect Value.SetInt on a field of signed integer kind ft:
stores the value truncated to the field width. -/
def setIntF (ft : FieldType) (n : Int) : PrimVal :=
  .pInt (wrapSigned (signedWidth ft) n)

/-- reflect Value.SetUint on a field of unsigned integer kind ft. -/
def setUintF (ft : FieldType) (u : Nat) : PrimVal :=
  .pUint (u % 2 ^ unsignedWidth ft)

/-- reflect Value.SetFloat: a float32 field stores the narrowed value. -/
def setFloatF (ft : FieldType) (f : GoFloat) : PrimVal :=
  match ft with
  | .tFloat32 => .pFloat (.narrow f)
  | _ => .pFloat f

/-! ## Models of the strconv parsers

Only base 10, bit size 64 calls occur in the code. -/

def isDigitCh (c : Char) : Bool :=
  48 ≤ c.toNat && c.toNat ≤ 57

def decValAux : List Char → Nat → Option Nat
  | [], acc => some acc
  | c :: cs, acc =>
      if isDigitCh c then decValAux cs (acc * 10 + (c.toNat - 48)) else none

/-- Value of a nonempty all digit string, none otherwise. -/
def decVal : List Char → Option Nat
  | [] => none
  | cs => decValAux cs 0

/-- strconv.ParseInt(s, 10, 64): optional sign, then a nonempty run of
decimal digits; errors outside the int64 range.  Base 10 permits no
underscores and no base prefixes. -/
def goParseInt (s : String) : Option Int :=
  match s.toList with
  | '+' :: rest =>
      (decVal rest).bind fun v =>
        if v ≤ 2 ^ 63 - 1 then some (Int.ofNat v) else none
  | '-' :: rest =>
      (decVal rest).bind fun v =>
        if v ≤ 2 ^ 63 then some (-(Int.ofNat v : Int)) else none
  | cs =>
      (decVal cs).bind fun v =>
        if v ≤ 2 ^ 63 - 1 then some (Int.ofNat v) else none

/-- strconv.ParseUint(s, 10, 64): no sign permitted; a nonempty run of
decimal digits within the uint64 range. -/
def goParseUint (s : String) : Option Nat :=
  (decVal s.toList).bind fun v =>
    if v ≤ 2 ^ 64 - 1 then some v else none

def lowerEq (cs : List Char) (t : List Char) : Bool :=
  cs.map Char.toLower == t

def infChars : List Char := ['i', 'n', 'f']
def infinityChars : List Char := ['i', 'n', 'f', 'i', 'n', 'i', 't', 'y']
def nanChars : List Char := ['n', 'a', 'n']

/-- The special values strconv.ParseFloat accepts: optionally signed
inf or infinity, and unsigned nan, case insensitively. -/
def floatSpecialOk (cs : List Char) : Bool :=
  match cs with
  | '+' :: r => lowerEq r infChars || lowerEq r infinityChars
  | '-' :: r => lowerEq r infChars || lowerEq r infinityChars
  | r => lowerEq r infChars || lowerEq r infinityChars || lowerEq r nanChars

/-- Exponent digits: an optional sign followed by a nonempty digit run. -/
def expDigitsOk : List Char → Bool
  | '+' :: r => !r.isEmpty && r.all isDigitCh
  | '-' :: r => !r.isEmpty && r.all isDigitCh
  | r => !r.isEmpty && r.all isDigitCh

/-- Optional exponent part: empty, or e or E followed by exponent digits. -/
def expOk : List Char → Bool
  | [] => true
  | c :: r => (c == 'e' || c == 'E') && expDigitsOk r

/-- Decimal mantissa with optional fraction and exponent; at least one
digit overall. -/
def mantExpOk (cs : List Char) : Bool :=
  let ip := cs.takeWhile isDigitCh
  let rest := cs.dropWhile isDigitCh
  match rest with
  | [] => !ip.isEmpty
  | '.' :: r2 =>
      let fp := r2.takeWhile isDigitCh
      let r3 := r2.dropWhile isDigitCh
      (!ip.isEmpty || !fp.isEmpty) && expOk r3
  | r => !ip.isEmpty && expOk r

/-- Model of strconv.ParseFloat(s, 64) restricted to the decimal and
special (inf, nan) forms; the hexadecimal float form and the digit
separating underscores of Go literals are outside the model, and the
numeric result is kept symbolic (GoFloat.parsed). -/
def goParseFloat (s : String) : Option GoFloat :=
  let cs := s.toList
  if floatSpecialOk cs then some (.parsed s)
  else
    let body := match cs with
      | '+' :: r => r
      | '-' :: r => r
      | r => r
    if mantExpOk body then some (.parsed s) else none

/-! ## The Value Converter (db_scan.go lines 184 to 284) -/

/-- db_scan.go lines 185 to 198 (directSet): a nil source reports
handled without writing; a source whose dynamic type is assignable to
the field type is stored as is.  In the closed universe the assignable
pairs are int64 to int64, float32 to float32, float64 to float64 and
time.Time to time.Time; a byte slice is assignable to no field type of
the universe. -/
def directSet (src : RawValue) (ft : FieldType) (cur : PrimVal) : Bool × PrimVal :=
  match src, ft with
  | .vnull, _ => (true, cur)
  | .vint64 n, .tInt64 => (true, .pInt n)
  | .vfloat32 f, .tFloat32 => (true, .pFloat f)
  | .vfloat64 f, .tFloat64 => (true, .pFloat f)
  | .vtime t, .tTime => (true, .pTime t)
  | _, _ => (false, cur)

/-- db_scan.go lines 277 to 284 (handleConvertTime): a string field
receives the timestamp formatted with the default layout; every other
kind fails with ErrConvertValue. -/
def handleConvertTime (t : GoTime) (ft : FieldType) (cur : PrimVal) :
    Option ScanErr × PrimVal :=
  if ft = .tString then (none, .pStr (goTimeFormat t))
  else (some .errConvertValue, cur)

/-- db_scan.go lines 242 to 275 (handleConvertMapSliceToField): the byte
slice assertion always succeeds in the closed universe (the only slice
typed raw value is a byte slice, so the ErrSliceToString branch is not
reachable); then the text is assigned to a string field, parsed as a
base 10 integer for integer kinds, parsed as a float for float kinds,
and every other kind fails with ErrUnSupportTypeConvert. -/
def handleConvertMapSliceToField (s : String) (ft : FieldType) (cur : PrimVal) :
    Option ScanErr × PrimVal :=
  if ft = .tString then (none, .pStr s)
  else if isSignedInteger ft then
    match goParseInt s with
    | some n => (none, setIntF ft n)
    | none => (some .errConvertValue, cur)
  else if isUnsignedInteger ft then
    match goParseUint s with
    | some u => (none, setUintF ft u)
    | none => (some .errConvertValue, cur)
  else if isFloat ft then
    match goParseFloat s with
    | some f => (none, setFloatF ft f)
    | none => (some .errConvertValue, cur)
  else (some .errUnSupportTypeConvert, cur)

/-- db_scan.go lines 201 to 239 (valueConvert): nil source is a no-op
success; then directSet; then the time.Time type switch; then the kind
switch.  In the Int64 case a target that is neither a signed nor an
unsigned integer kind falls through both branches and the function
returns nil without writing: a silent success.  The Float32 and Float64
cases behave likewise for non float targets.  The default branch
(ErrConvertValue) is unreachable for the closed union of raw values:
every dynamic kind a driver produces is covered above it. -/
def valueConvert (src : RawValue) (ft : FieldType) (cur : PrimVal) :
    Option ScanErr × PrimVal :=
  match src with
  | .vnull => (none, cur)
  | _ =>
    match directSet src ft cur with
    | (true, v2) => (none, v2)
    | (false, _) =>
      match src with
      | .vtime t => handleConvertTime t ft cur
      | .vbytes s => handleConvertMapSliceToField s ft cur
      | .vint64 n =>
          if isSignedInteger ft then (none, setIntF ft n)
          else if isUnsignedInteger ft then (none, setUintF ft (int64ToUint64 n))
          else (none, cur)
      | .vfloat32 f =>
          if isFloat ft then (none, setFloatF ft (.widen f)) else (none, cur)
      | .vfloat64 f =>
          if isFloat ft then (none, setFloatF ft f) else (none, cur)
      | .vnull => (none, cur)

/-! ## Rows and the Row Extractor (db_scan.go lines 91 to 115) -/

/-- A raw row: the map from column name to raw value, materialized as an
association list with the Go map insert semantics (a later write to the
same key overwrites the earlier entry). -/
def Row : Type := List (String × RawValue)

/-- Go map assignment mp[k] = v. -/
def insertOverwrite : List (String × RawValue) → String → RawValue → List (String × RawValue)
  | [], k, v => [(k, v)]
  | (k0, v0) :: rest, k, v =>
      if k0 = k then (k, v) :: rest else (k0, v0) :: insertOverwrite rest k v

/-- Go map lookup mp[k]. -/
def rowLookup : List (String × RawValue) → String → Option RawValue
  | [], _ => none
  | (k0, v0) :: rest, k => if k0 = k then some v0 else rowLookup rest k

/-- db_scan.go lines 108 to 111: build the per row map by writing each
column in order (duplicate column names: the later column wins). -/
def mkRow (cols : List String) (vals : List RawValue) : Row :=
  (cols.zip vals).foldl (fun r p => insertOverwrite r p.1 p.2) []

/-- The cursor, modelled as pure data: its column names and the values
each remaining row will scan.  Columns and per row scans of the model
cursor do not fail (driver side failures are outside the claims). -/
structure Cursor where
  columns : List String
  rowsData : List (List RawValue)

/-- db_scan.go lines 91 to 115 (ExtraDatasFromRows): read the column
names once, then exhaust the cursor, materializing every row; returns
the row list and the drained cursor.  In Go the result slice is nil
exactly when no row was produced, which the model renders as the empty
list. -/
def ExtraDatasFromRows (c : Cursor) : List Row × Cursor :=
  (c.rowsData.map (mkRow c.columns), ⟨c.columns, []⟩)

/-! ## The Record Binder (db_scan.go lines 140 to 182) -/

/-- db_scan.go lines 161 to 180: the field loop of singleResult.  Walks
the declared fields in parallel with the current field values; skips a
field that reflect cannot set, whose tag is absent or empty, or whose
column is not in the row; otherwise converts.  The first conversion
failure aborts the loop: fields already written stay written, later
fields keep their old values. -/
def bindFields (row : Row) : List FieldDecl → List PrimVal → Outcome × List PrimVal
  | f :: fs, v :: vs =>
    if f.canSet = false then
      let r := bindFields row fs vs
      (r.1, v :: r.2)
    else
      match f.tag with
      | none =>
        let r := bindFields row fs vs
        (r.1, v :: r.2)
      | some tg =>
        if tg = "" then
          let r := bindFields row fs vs
          (r.1, v :: r.2)
        else
          match rowLookup row tg with
          | none =>
            let r := bindFields row fs vs
            (r.1, v :: r.2)
          | some raw =>
            match valueConvert raw f.ftype v with
            | (none, v2) =>
              let r := bindFields row fs vs
              (r.1, v2 :: r.2)
            | (some e, v2) => (.err e, v2 :: vs)
  | _, vs => (.ok, vs)

/-- db_scan.go lines 140 to 182 (singleResult).  The argument is the
location the target pointer refers to, with its static type; the result
is the error and the (possibly partially) updated location.  A pointer
typed location: the code allocates a fresh zero instance of the pointee
type with reflect.New, recurses into it, and only on success writes the
new pointer back (on failure the location keeps its old value).  A
struct typed location runs the field loop.  Any other kind panics in
reflect (NumField on a non struct value).  The CanSet guard of the Go
code cannot fire on this path: every caller passes the element of a non
nil pointer. -/
def singleResult (row : Row) : GoType → GoValue → Outcome × GoValue
  | .ptrT t, v =>
    match singleResult row t (zeroValue t) with
    | (.ok, w) => (.ok, .ptr w)
    | (.err e, _) => (.err e, v)
    | (.panicked m, _) => (.panicked m, v)
  | .structT fds, .strukt vals =>
    let r := bindFields row fds vals
    (r.1, .strukt r.2)
  | .structT _, v => (.panicked " model: struct value shape mismatch", v)
  | _, v => (.panicked " reflect: call of reflect.Value.NumField on non-struct Value", v)

/-- The field list of a struct value. -/
def structFields : GoValue → List PrimVal
  | .strukt vals => vals
  | _ => []

/-! ## The Collection Binder (db_scan.go lines 117 to 138) -/

/-- db_scan.go lines 128 to 135: for each row allocate a fresh zero
element, bind it with singleResult, and collect the bound elements; the
first failure aborts the iteration. -/
def multiRows (elemT : GoType) : List Row → Outcome × List GoValue
  | [] => (.ok, [])
  | d :: ds =>
    match singleResult d elemT (zeroValue elemT) with
    | (.ok, w) =>
      let r := multiRows elemT ds
      (r.1, w :: r.2)
    | (.err e, _) => (.err e, [])
    | (.panicked m, _) => (.panicked m, [])

/-- db_scan.go lines 117 to 138 (multiResults): old is the current value
of the slice the target pointer refers to.  On success the destination
is replaced wholesale by the newly built (non nil) slice; on any failure
the destination keeps its old value, since the Go code only executes
valueObj.Set after the loop completed.  The CanSet guard cannot fire:
Scan passes a non nil pointer. -/
def multiResults (datas : List Row) (elemT : GoType) (old : GoValue) : Outcome × GoValue :=
  match multiRows elemT datas with
  | (.ok, ws) => (.ok, .sliceV false ws)
  | (.err e, _) => (.err e, old)
  | (.panicked m, _) => (.panicked m, old)

/-! ## The entry point (db_scan.go lines 67 to 89) -/

/-- Kinds on which reflect.Value.IsNil is legal.  In the destination
universe these are pointers and slices; on any other kind IsNil panics. -/
def nilableKind : GoType → Bool
  | .ptrT _ => true
  | .sliceT _ => true
  | _ => false

/-- reflect.Value.IsNil for values of nilable kind. -/
def isNilValue : GoValue → Bool
  | .ptrNil => true
  | .sliceV b _ => b
  | _ => false

def isSliceType : GoType → Bool
  | .sliceT _ => true
  | _ => false

/-- The interface typed argument of Scan: nothing (the untyped nil
interface) or a dynamic type together with a value. -/
def TargetArg : Type := Option (GoType × GoValue)

/-- db_scan.go lines 67 to 89 (Scan).  Returns the outcome, the final
state of the target argument and the final cursor state.  The guard of
line 69 evaluates left to right with short circuiting: nil interface,
then reflect IsNil, then the pointer kind test; because IsNil runs
before the kind test, a non nil target of a non nilable kind (an int, a
struct, a string passed by value) panics inside reflect instead of
returning ErrTargetNotSettable.  After extraction, a slice pointee with
no rows is a silent success that leaves the destination untouched; a non
slice pointee requires at least one row and binds exactly the first. -/
def Scan (c : Cursor) (target : TargetArg) : Outcome × TargetArg × Cursor :=
  match target with
  | none => (.err .errTargetNotSettable, none, c)
  | some (t, v) =>
    if nilableKind t = false then
      (.panicked " reflect: call of reflect.Value.IsNil on non-nilable Value",
       some (t, v), c)
    else if isNilValue v = true then
      (.err .errTargetNotSettable, some (t, v), c)
    else
      match t, v with
      | .ptrT t2, .ptr v2 =>
        let ext := ExtraDatasFromRows c
        (match t2 with
         | .sliceT elemT =>
           (match ext.1 with
            | [] => (.ok, some (.ptrT t2, .ptr v2), ext.2)
            | _ :: _ =>
              let r := multiResults ext.1 elemT v2
              (r.1, some (.ptrT t2, .ptr r.2), ext.2))
         | _ =>
           (match ext.1 with
            | [] => (.err .errEmptyResult, some (.ptrT t2, .ptr v2), ext.2)
            | d :: _ =>
              let r := singleResult d t2 v2
              (r.1, some (.ptrT t2, .ptr r.2), ext.2)))
      | .sliceT t2, w =>
        -- a non nil slice passed by value: kind is not Ptr
        (.err .errTargetNotSettable, some (.sliceT t2, w), c)
      | t1, w => (.panicked " model: target value shape mismatch", some (t1, w), c)

/-! # Claims -/

/-- Claim C1, counterexample.  The claim states that an int64 raw value
converted into a field whose kind is not an integer kind fails with an
error.  The code instead returns success: here an int64 source and a
float64 destination field yield no error and leave the field untouched,
because the Int64 case of valueConvert falls through both of its integer
branches without reporting anything. -/
theorem c1_counterexample :
    valueConvert (.vint64 7) .tFloat64 (.pFloat .zero) = (none, .pFloat .zero) :=
  rfl

/-- Claim C1, amended.  For an int64 raw value and a destination field
of non integer kind, and for a float32 or float64 raw value and a
destination field of non float kind, valueConvert succeeds silently and
leaves the field unmodified: mismatched numeric families are a no-op
success, not an error. -/
theorem c1_claim (ft : FieldType) (cur : PrimVal) :
    (∀ n : Int, isInteger ft = false → valueConvert (.vint64 n) ft cur = (none, cur)) ∧
    (∀ f : GoFloat, isFloat ft = false →
      valueConvert (.vfloat32 f) ft cur = (none, cur) ∧
      valueConvert (.vfloat64 f) ft cur = (none, cur)) := by
  constructor
  · intro n h
    cases ft <;> first | rfl | exact Bool.noConfusion h
  · intro f h
    cases ft <;> first | exact ⟨rfl, rfl⟩ | exact Bool.noConfusion h

/-- Claim C1, witness for the amended theorem at concrete inputs. -/
theorem c1_witness :
    valueConvert (.vint64 7) .tString (.pStr "x") = (none, .pStr "x") ∧
    valueConvert (.vfloat32 (.f32lit 3)) .tInt64 (.pInt 5) = (none, .pInt 5) := by
  exact ⟨(c1_claim .tString (.pStr "x")).1 7 rfl,
         ((c1_claim .tInt64 (.pInt 5)).2 (.f32lit 3) rfl).1⟩

/-- Claim C2, counterexample.  The claim states that a timestamp raw
value bound to any non textual field always fails with ConversionFailed.
A field of static type time.Time is not textual, yet the conversion
succeeds: directSet runs before the timestamp rule and assigns the
timestamp as is. -/
theorem c2_counterexample :
    valueConvert (.vtime ⟨2020, 3, 4, 5, 6, 7⟩) .tTime (.pTime ⟨1, 1, 1, 0, 0, 0⟩)
      = (none, .pTime ⟨2020, 3, 4, 5, 6, 7⟩) :=
  rfl

/-- Claim C2, amended.  A timestamp raw value bound to a textual field
yields the string produced by the fixed layout 2006-01-02 15:04:05;
bound to a non textual field other than time.Time itself (to which it is
directly assignable) it always fails with ErrConvertValue. -/
theorem c2_claim (t : GoTime) (ft : FieldType) (cur : PrimVal) :
    (ft = .tString → valueConvert (.vtime t) ft cur = (none, .pStr (goTimeFormat t))) ∧
    (ft ≠ .tString → ft ≠ .tTime →
      valueConvert (.vtime t) ft cur = (some .errConvertValue, cur)) := by
  constructor
  · rintro rfl
    rfl
  · intro h1 h2
    cases ft <;> first | rfl | exact absurd rfl h1 | exact absurd rfl h2

/-- Claim C2, witness: the formatted string for a concrete timestamp and
the failure on a concrete non textual field. -/
theorem c2_witness :
    valueConvert (.vtime ⟨2020, 3, 4, 5, 6, 7⟩) .tString (.pStr "")
      = (none, .pStr "2020-03-04 05:06:07") ∧
    valueConvert (.vtime ⟨2020, 3, 4, 5, 6, 7⟩) .tInt64 (.pInt 0)
      = (some .errConvertValue, .pInt 0) := by
  constructor
  · exact ((c2_claim ⟨2020, 3, 4, 5, 6, 7⟩ .tString (.pStr "")).1 rfl).trans rfl
  · exact (c2_claim ⟨2020, 3, 4, 5, 6, 7⟩ .tInt64 (.pInt 0)).2 (by decide) (by decide)

/-- Claim C7.  A byte sequence raw value is assigned as text to a string
field; parsed as a base 10 integer (signed or unsigned as the field
demands) for integer kinds; parsed as a float for float kinds; any other
kind (boolean, time.Time) yields ErrUnSupportTypeConvert; and every
parse failure yields ErrConvertValue — the converter is a total function
into an error sum, so no input panics. -/
theorem c7_claim (s : String) (ft : FieldType) (cur : PrimVal) :
    (valueConvert (.vbytes s) .tString cur = (none, .pStr s)) ∧
    (isSignedInteger ft = true →
      valueConvert (.vbytes s) ft cur =
        (match goParseInt s with
         | some n => (none, setIntF ft n)
         | none => (some .errConvertValue, cur))) ∧
    (isUnsignedInteger ft = true →
      valueConvert (.vbytes s) ft cur =
        (match goParseUint s with
         | some u => (none, setUintF ft u)
         | none => (some .errConvertValue, cur))) ∧
    (isFloat ft = true →
      valueConvert (.vbytes s) ft cur =
        (match goParseFloat s with
         | some f => (none, setFloatF ft f)
         | none => (some .errConvertValue, cur))) ∧
    ((ft = .tBool ∨ ft = .tTime) →
      valueConvert (.vbytes s) ft cur = (some .errUnSupportTypeConvert, cur)) := by
  refine ⟨rfl, ?_, ?_, ?_, ?_⟩
  · intro h
    cases ft <;>
      first
        | exact Bool.noConfusion h
        | (cases hg : goParseInt s <;>
            simp [valueConvert, directSet, handleConvertMapSliceToField, isSignedInteger, isUnsignedInteger, isFloat, hg])
  · intro h
    cases ft <;>
      first
        | exact Bool.noConfusion h
        | (cases hg : goParseUint s <;>
            simp [valueConvert, directSet, handleConvertMapSliceToField, isSignedInteger, isUnsignedInteger, isFloat, hg])
  · intro h
    cases ft <;>
      first
        | exact Bool.noConfusion h
        | (cases hg : goParseFloat s <;>
            simp [valueConvert, directSet, handleConvertMapSliceToField, isSignedInteger, isUnsignedInteger, isFloat, hg])
  · rintro (rfl | rfl) <;> rfl

/-- Claim C7, witness: bytes 42 into a signed integer field yield the
integer 42; bytes into a boolean field yield the unsupported conversion
error; a failed integer parse yields the conversion error. -/
theorem c7_witness :
    valueConvert (.vbytes "42") .tInt64 (.pInt 0) = (none, .pInt 42) ∧
    valueConvert (.vbytes "42") .tBool (.pBool false)
      = (some .errUnSupportTypeConvert, .pBool false) ∧
    valueConvert (.vbytes "abc") .tInt (.pInt 9) = (some .errConvertValue, .pInt 9) := by
  refine ⟨?_, ?_, ?_⟩
  · exact ((c7_claim "42" .tInt64 (.pInt 0)).2.1 rfl).trans (by decide)
  · exact (c7_claim "42" .tBool (.pBool false)).2.2.2.2 (Or.inl rfl)
  · exact ((c7_claim "abc" .tInt (.pInt 9)).2.1 rfl).trans rfl

/-- Claim C10.  An int64 raw value stored into a field of unsigned
integer kind goes through the Go conversion uint64(v), the value modulo
2 to the 64, and reflect SetUint then truncates to the field width
(which is 64 for uint, uint64 and uintptr); no error is produced, so a
negative value wraps around instead of failing. -/
theorem c10_claim (n : Int) (ft : FieldType) (cur : PrimVal)
    (h : isUnsignedInteger ft = true) :
    valueConvert (.vint64 n) ft cur
      = (none, .pUint (int64ToUint64 n % 2 ^ unsignedWidth ft)) := by
  cases ft <;> first | exact Bool.noConfusion h | rfl

/-- Claim C10, witness: the raw value minus one stored into a uint64
field becomes 2 to the 64 minus 1, the two complement wraparound. -/
theorem c10_witness :
    valueConvert (.vint64 (-1)) .tUint64 (.pUint 0)
      = (none, .pUint 18446744073709551615) := by
  exact (c10_claim (-1) .tUint64 (.pUint 0) rfl).trans (by decide)

/-- Claim C4, counterexample.  The claim states that at each indirection
level, when the location holds no value, the binder allocates a fresh
zero instance and writes it back BEFORE descending further.  The code
writes back only after the descent succeeded: here the descent happens
(the conversion error can only come from binding the allocated record)
yet the nil pointer location is left holding no value afterwards. -/
theorem c4_counterexample :
    singleResult [("a", .vbytes "abc")]
        (.ptrT (.structT [⟨"A", some "a", .tInt64, true⟩])) .ptrNil
      = (.err .errConvertValue, .ptrNil) :=
  rfl

/-- Helper: the pointer case of singleResult as a standalone equation
(fresh zero allocation of the pointee, descent, write back on success,
old value kept on failure). -/
theorem singleResult_ptr (row : Row) (t : GoType) (v : GoValue) :
    singleResult row (.ptrT t) v =
      (match singleResult row t (zeroValue t) with
       | (.ok, w) => (.ok, .ptr w)
       | (.err e, _) => (.err e, v)
       | (.panicked m, _) => (.panicked m, v)) := by
  rcases hsr : singleResult row t (zeroValue t) with ⟨o, w⟩
  cases o <;> simp [singleResult, hsr]

/-- Claim C4, amended.  A pointer typed destination is resolved level by
level: the binder allocates a fresh zero instance of the pointee type
(whether or not the location already held a value), descends into it,
and writes the new pointer back only when the lower levels bound
successfully; on failure the location keeps its old value.  A pointer to
pointer destination is therefore bound exactly like a direct destination
started from the zero value, wrapped in two pointers. -/
theorem c4_claim (row : Row) (t : GoType) (v : GoValue) :
    (singleResult row (.ptrT t) v =
      (match singleResult row t (zeroValue t) with
       | (.ok, w) => (.ok, .ptr w)
       | (.err e, _) => (.err e, v)
       | (.panicked m, _) => (.panicked m, v))) ∧
    (singleResult row (.ptrT (.ptrT t)) .ptrNil =
      (match singleResult row t (zeroValue t) with
       | (.ok, w) => (.ok, .ptr (.ptr w))
       | (.err e, _) => (.err e, .ptrNil)
       | (.panicked m, _) => (.panicked m, .ptrNil))) := by
  constructor
  · exact singleResult_ptr row t v
  · rw [singleResult_ptr row (.ptrT t) .ptrNil,
      show zeroValue (.ptrT t) = GoValue.ptrNil from rfl,
      singleResult_ptr row t .ptrNil]
    rcases hsr : singleResult row t (zeroValue t) with ⟨o, w⟩
    cases o <;> rfl

/-- Helper for claim C8: one step of the field loop either conses some
head onto the recursive tail, or aborts and conses some head onto the
untouched remaining values. -/
theorem bindFields_cons_shape (row : Row) (f0 : FieldDecl) (fs : List FieldDecl)
    (v : PrimVal) (vs : List PrimVal) :
    (∃ o hd, bindFields row (f0 :: fs) (v :: vs) = (o, hd :: (bindFields row fs vs).2)) ∨
    (∃ o hd, bindFields row (f0 :: fs) (v :: vs) = (o, hd :: vs)) := by
  cases hcs : f0.canSet with
  | false =>
    exact Or.inl ⟨(bindFields row fs vs).1, v, by simp [bindFields, hcs]⟩
  | true =>
    cases htag : f0.tag with
    | none =>
      exact Or.inl ⟨(bindFields row fs vs).1, v, by simp [bindFields, hcs, htag]⟩
    | some tg =>
      by_cases htg : tg = ""
      · exact Or.inl ⟨(bindFields row fs vs).1, v,
          by simp [bindFields, hcs, htag, htg]⟩
      · cases hlk : rowLookup row tg with
        | none =>
          exact Or.inl ⟨(bindFields row fs vs).1, v,
            by simp [bindFields, hcs, htag, htg, hlk]⟩
        | some raw =>
          rcases hvc : valueConvert raw f0.ftype v with ⟨oe, v2⟩
          cases oe with
          | none =>
            exact Or.inl ⟨(bindFields row fs vs).1, v2,
              by simp [bindFields, hcs, htag, htg, hlk, hvc]⟩
          | some e =>
            exact Or.inr ⟨.err e, v2,
              by simp [bindFields, hcs, htag, htg, hlk, hvc]⟩

/-- Helper for claim C8: when the head field lacks usable binding
metadata (no tag, empty tag, or not settable by reflect), the field loop
leaves the head value in place and continues with the tail. -/
theorem bindFields_cons_skip (row : Row) (f0 : FieldDecl) (fs : List FieldDecl)
    (v : PrimVal) (vs : List PrimVal)
    (h : f0.tag = none ∨ f0.tag = some "" ∨ f0.canSet = false) :
    bindFields row (f0 :: fs) (v :: vs)
      = ((bindFields row fs vs).1, v :: (bindFields row fs vs).2) := by
  cases hcs : f0.canSet with
  | false => simp [bindFields, hcs]
  | true =>
    rcases h with htag | htag | hcs2
    · simp [bindFields, hcs, htag]
    · simp [bindFields, hcs, htag]
    · rw [hcs2] at hcs
      exact Bool.noConfusion hcs

/-- Helper for claim C8: a field without usable binding metadata is
never modified by the field loop, at any position, on success and on
failure alike. -/
theorem bindFields_untagged (row : Row) (fds : List FieldDecl) :
    ∀ (vals : List PrimVal) (i : Nat) (f : FieldDecl),
      fds.get? i = some f →
      (f.tag = none ∨ f.tag = some "" ∨ f.canSet = false) →
      ((bindFields row fds vals).2).get? i = vals.get? i := by
  induction fds with
  | nil =>
    intro vals i f hf _
    exact Option.noConfusion hf
  | cons f0 fs ih =>
    intro vals i f hf h
    cases vals with
    | nil =>
      rfl
    | cons v vs =>
      cases i with
      | zero =>
        have hf0 : f0 = f := by
          injection hf
        rw [bindFields_cons_skip row f0 fs v vs (hf0 ▸ h)]
        rfl
      | succ i2 =>
        have hf2 : fs.get? i2 = some f := hf
        rcases bindFields_cons_shape row f0 fs v vs with ⟨o, hd, hb⟩ | ⟨o, hd, hb⟩
        · rw [hb]
          exact ih vs i2 f hf2 h
        · rw [hb]
          rfl

/-- Claim C8, counterexample.  The claim states that a field lacking
binding metadata is never modified by any binding operation.  When the
destination sits behind a pointer, the binder replaces the pointee by a
freshly allocated zero record even on an empty row: the untagged field
that held 42 reads 0 through the destination afterwards. -/
theorem c8_counterexample :
    singleResult [] (.ptrT (.structT [⟨"A", none, .tInt64, true⟩]))
        (.ptr (.strukt [.pInt 42]))
      = (.ok, .ptr (.strukt [.pInt 0])) :=
  rfl

/-- Claim C8, amended.  Within the binding of a record location itself
(the field loop of singleResult on a struct typed destination), a field
whose tag is absent or empty, or which reflect cannot set, keeps its
value for every row, on success and on failure alike.  The guarantee
does not extend through pointer indirection, where the whole record is
replaced by a freshly allocated one. -/
theorem c8_claim (row : Row) (fds : List FieldDecl) (vals : List PrimVal)
    (i : Nat) (f : FieldDecl)
    (hf : fds.get? i = some f)
    (h : f.tag = none ∨ f.tag = some "" ∨ f.canSet = false) :
    (structFields (singleResult row (.structT fds) (.strukt vals)).2).get? i
      = vals.get? i := by
  have hs : (singleResult row (.structT fds) (.strukt vals)).2
      = .strukt (bindFields row fds vals).2 := rfl
  rw [hs]
  exact bindFields_untagged row fds vals i f hf h

/-- Claim C8, witness: a concrete record with an untagged first field
holding 42 and a tagged second field; binding a row that updates the
second field leaves the first at 42. -/
theorem c8_witness :
    (structFields (singleResult [("b", .vint64 1)]
        (.structT [⟨"A", none, .tInt64, true⟩, ⟨"B", some "b", .tInt64, true⟩])
        (.strukt [.pInt 42, .pInt 0])).2).get? 0
      = some (.pInt 42) := by
  exact (c8_claim [("b", .vint64 1)]
      [⟨"A", none, .tInt64, true⟩, ⟨"B", some "b", .tInt64, true⟩]
      [.pInt 42, .pInt 0] 0 ⟨"A", none, .tInt64, true⟩ rfl (Or.inl rfl)).trans rfl

/-- Helper for claim C5: when every row before d binds successfully and
d fails, the row loop reports the failure of d. -/
theorem multiRows_append_err (elemT : GoType) (e : ScanErr) (d : Row)
    (ds2 : List Row) :
    ∀ ds1 : List Row,
      (∀ r ∈ ds1, (singleResult r elemT (zeroValue elemT)).1 = .ok) →
      (singleResult d elemT (zeroValue elemT)).1 = .err e →
      (multiRows elemT (ds1 ++ d :: ds2)).1 = .err e := by
  intro ds1
  induction ds1 with
  | nil =>
    intro _ hd
    rcases hsd : singleResult d elemT (zeroValue elemT) with ⟨o, w⟩
    rw [hsd] at hd
    simp at hd
    subst hd
    simp [multiRows, hsd]
  | cons r rs ih =>
    intro hall hd
    have hr : (singleResult r elemT (zeroValue elemT)).1 = .ok :=
      hall r (by simp)
    rcases hsr : singleResult r elemT (zeroValue elemT) with ⟨o, w⟩
    rw [hsr] at hr
    simp at hr
    subst hr
    simp only [List.cons_append, multiRows, hsr]
    exact ih (fun x hx => hall x (by simp [hx])) hd

/-- Claim C5.  For a collection destination, if some row fails to bind
(every row before it binding fine), multiResults propagates exactly that
failure and returns the old destination value: the destination slice is
never replaced by a half built collection, because the Go code only
executes valueObj.Set after the whole loop succeeded. -/
theorem c5_claim (elemT : GoType) (old : GoValue) (e : ScanErr)
    (ds1 : List Row) (d : Row) (ds2 : List Row)
    (h1 : ∀ r ∈ ds1, (singleResult r elemT (zeroValue elemT)).1 = .ok)
    (h2 : (singleResult d elemT (zeroValue elemT)).1 = .err e) :
    multiResults (ds1 ++ d :: ds2) elemT old = (.err e, old) := by
  have hm := multiRows_append_err elemT e d ds2 ds1 h1 h2
  rcases hq : multiRows elemT (ds1 ++ d :: ds2) with ⟨o, ws⟩
  rw [hq] at hm
  simp at hm
  subst hm
  simp [multiResults, hq]

/-- Claim C5, witness: a good first row, then a row whose value cannot
be parsed into the tagged int64 field; the old one element slice
survives untouched and the parse failure is reported. -/
theorem c5_witness :
    multiResults [[("a", .vint64 1)], [("a", .vbytes "x")]]
        (.structT [⟨"A", some "a", .tInt64, true⟩])
        (.sliceV false [.strukt [.pInt 9]])
      = (.err .errConvertValue, .sliceV false [.strukt [.pInt 9]]) := by
  exact c5_claim (.structT [⟨"A", some "a", .tInt64, true⟩])
    (.sliceV false [.strukt [.pInt 9]]) .errConvertValue
    [[("a", .vint64 1)]] [("a", .vbytes "x")] [] (by decide) (by decide)

/-- Claim C3 (code bug).  The claim states that every null or non
pointer destination makes Scan return ErrTargetNotSettable without
touching the cursor.  The guard calls reflect.Value.IsNil before testing
the kind, and IsNil panics on a non nilable kind: passing a plain int
value makes Scan panic inside reflect instead of returning the error
(first conjunct; the cursor is still untouched).  The nil interface and
a typed nil pointer do return the error with the cursor untouched
(second and third conjuncts). -/
theorem c3_claim :
    Scan ⟨["a"], [[.vint64 1]]⟩ (some (.prim .tInt64, .prim (.pInt 5)))
      = (.panicked " reflect: call of reflect.Value.IsNil on non-nilable Value",
         some (.prim .tInt64, .prim (.pInt 5)), ⟨["a"], [[.vint64 1]]⟩) ∧
    Scan ⟨["a"], [[.vint64 1]]⟩ none
      = (.err .errTargetNotSettable, none, ⟨["a"], [[.vint64 1]]⟩) ∧
    Scan ⟨["a"], [[.vint64 1]]⟩ (some (.ptrT (.structT []), .ptrNil))
      = (.err .errTargetNotSettable, some (.ptrT (.structT []), .ptrNil),
         ⟨["a"], [[.vint64 1]]⟩) :=
  ⟨rfl, rfl, rfl⟩

/-- Claim C6.  For a pointer to slice destination and a cursor that
yields no rows, Scan succeeds and the destination is left exactly as it
was: the early return on the nil row list happens before multiResults,
so the old slice value (whatever it is) is neither replaced nor nulled. -/
theorem c6_claim (cols : List String) (elemT : GoType) (sv : GoValue) :
    Scan ⟨cols, []⟩ (some (.ptrT (.sliceT elemT), .ptr sv))
      = (.ok, some (.ptrT (.sliceT elemT), .ptr sv), ⟨cols, []⟩) :=
  rfl

/-- Claim C9.  For a non slice pointee and a cursor with at least one
row, Scan binds exactly the first extracted row with singleResult and
returns its outcome; the remaining rows are ignored entirely, so running
Scan on the same destination with all later rows removed gives the same
result. -/
theorem c9_claim (cols : List String) (r0 : List RawValue)
    (rs : List (List RawValue)) (t : GoType) (v : GoValue)
    (h : isSliceType t = false) :
    (Scan ⟨cols, r0 :: rs⟩ (some (.ptrT t, .ptr v))
      = ((singleResult (mkRow cols r0) t v).1,
         some (.ptrT t, .ptr (singleResult (mkRow cols r0) t v).2),
         ⟨cols, []⟩)) ∧
    (Scan ⟨cols, r0 :: rs⟩ (some (.ptrT t, .ptr v))
      = Scan ⟨cols, [r0]⟩ (some (.ptrT t, .ptr v))) := by
  constructor
  · cases t <;> first | exact Bool.noConfusion h | rfl
  · cases t <;> first | exact Bool.noConfusion h | rfl

/-- Claim C9, witness: two rows, a record destination; the result is the
binding of the first row alone, and equals the run with one row. -/
theorem c9_witness :
    (Scan ⟨["a"], [[.vint64 1], [.vint64 2]]⟩
        (some (.ptrT (.structT [⟨"A", some "a", .tInt64, true⟩]),
               .ptr (.strukt [.pInt 0])))
      = (.ok, some (.ptrT (.structT [⟨"A", some "a", .tInt64, true⟩]),
                    .ptr (.strukt [.pInt 1])), ⟨["a"], []⟩)) ∧
    (Scan ⟨["a"], [[.vint64 1], [.vint64 2]]⟩
        (some (.ptrT (.structT [⟨"A", some "a", .tInt64, true⟩]),
               .ptr (.strukt [.pInt 0])))
      = Scan ⟨["a"], [[.vint64 1]]⟩
          (some (.ptrT (.structT [⟨"A", some "a", .tInt64, true⟩]),
                 .ptr (.strukt [.pInt 0])))) := by
  have h := c9_claim ["a"] [.vint64 1] [[.vint64 2]]
    (.structT [⟨"A", some "a", .tInt64, true⟩]) (.strukt [.pInt 0]) rfl
  exact ⟨h.1.trans rfl, h.2⟩

end DbScan
